import Mathlib

/-!
Shallow embedding of the `mfdlabs/node-environment` library: the `getOrDefault`
typed coercion engine of `src/environment/index.ts` (the revision carrying the
parametrized `array<T>` shape literals), the docker container probes, and the
collaborators (`type_converters`, the override store) that the source and its
test suite reference but whose implementation files are not in the reviewed
tree; those two are modelled from the spec and marked as such.

JavaScript floating-point numbers are abstracted as exact decimal values (a
mantissa-exponent pair) together with distinguished `NaN` and infinity markers;
every numeric value appearing in the theorems below is exactly representable,
so no rounding behavior is lost.
-/

namespace Environment

/-- A JS number: `NaN`, a signed infinity, or a finite value. A finite value
is kept in canonical decimal scientific form `mant * 10 ^ exp10` with the
mantissa not divisible by ten (exponent zero when the mantissa is zero);
construction always goes through `mkDec`, which establishes that form, so
syntactic equality of the payload coincides with numeric equality. -/
inductive JsNumber where
  | nan
  | posInf
  | negInf
  | finite (mant : Int) (exp10 : Int)
deriving DecidableEq, Repr

/-- Strip factors of ten from a mantissa, bumping the exponent, with enough
fuel to exhaust them. -/
def stripZeros : Nat → Nat → Int → Nat × Int
  | 0, m, e => (m, e)
  | fuel + 1, m, e =>
    if m ≠ 0 ∧ m % 10 = 0 then stripZeros fuel (m / 10) (e + 1) else (m, e)

/-- The canonical finite JS number with value `m * 10 ^ e`. -/
def mkDec (m : Int) (e : Int) : JsNumber :=
  if m = 0 then .finite 0 0
  else
    let p := stripZeros m.natAbs m.natAbs e
    .finite (if m < 0 then -(p.1 : Int) else (p.1 : Int)) p.2

/-- The two builtin error classes the translated code can raise: `TypeError`
(property access or call on an unsuitable value) and `SyntaxError` (malformed
bigint, JSON or pattern text). -/
inductive JsError where
  | typeError
  | syntaxError
deriving DecidableEq, Repr

/-- Runtime JS values as they flow through `getOrDefault`. A zero-argument
function default is modelled by `vFunc ret`, carrying the value it returns when
called; an object is a field list; a regular expression is its source and
flags text. -/
inductive JsValue where
  | vNull
  | vUndefined
  | vBool (b : Bool)
  | vNum (n : JsNumber)
  | vBigInt (i : Int)
  | vStr (s : String)
  | vArr (elems : List JsValue)
  | vObj (fields : List (String × JsValue))
  | vRegExp (source : String) (flags : String)
  | vFunc (ret : JsValue)

/-- The JS `typeof` operator on the modelled values. -/
def typeofV : JsValue → String
  | .vNull => "object"
  | .vUndefined => "undefined"
  | .vBool _ => "boolean"
  | .vNum _ => "number"
  | .vBigInt _ => "bigint"
  | .vStr _ => "string"
  | .vArr _ => "object"
  | .vObj _ => "object"
  | .vRegExp _ _ => "object"
  | .vFunc _ => "function"

/-- Whether a value is `null` or `undefined` (the `??` / `?.` nullish test). -/
def isNullish : JsValue → Bool
  | .vNull => true
  | .vUndefined => true
  | _ => false

/-! ### String helpers (JS builtins used by the source, made kernel-reducible) -/

/-- Worker for `jsSplit`. -/
def splitAux (sep : Char) : List Char → List Char → List (List Char)
  | [], acc => [acc.reverse]
  | c :: rest, acc =>
    if c = sep then acc.reverse :: splitAux sep rest []
    else splitAux sep rest (c :: acc)

/-- `String.prototype.split` with a one-character separator, as the source uses
it: `"".split(',')` is `[""]` and separators at the ends produce empty
segments. -/
def jsSplit (s : String) (sep : Char) : List String :=
  (splitAux sep s.toList []).map fun l => ⟨l⟩

/-- JS whitespace for trimming and `parseFloat` (the common characters; the
exotic Unicode space classes never appear in the reviewed behavior). -/
def isWsChar (c : Char) : Bool :=
  c == ' ' || c == '\t' || c == '\n' || c == '\r'

/-- Trim leading and trailing whitespace from a character list. -/
def trimList (l : List Char) : List Char :=
  ((l.dropWhile isWsChar).reverse.dropWhile isWsChar).reverse

/-- `String.prototype.trim`. -/
def jsTrim (s : String) : String := ⟨trimList s.toList⟩

/-- `String.prototype.toLowerCase` (ASCII, as the spec's tokens require). -/
def lowerStr (s : String) : String := ⟨s.toList.map Char.toLower⟩

/-- Remove the first occurrence of a character, mirroring
`String.prototype.replace(c, "")` with a one-character pattern. -/
def removeFirstChar (c : Char) : List Char → List Char
  | [] => []
  | x :: xs => if x = c then xs else x :: removeFirstChar c xs

/-- Whether the second list is a prefix of the first read pointwise. -/
def prefixedBy : List Char → List Char → Bool
  | [], _ => true
  | _ :: _, [] => false
  | p :: ps, c :: cs => p == c && prefixedBy ps cs

/-- `String.prototype.startsWith`. -/
def strStartsWith (s p : String) : Bool := prefixedBy p.toList s.toList

/-- Whether `sub` occurs contiguously inside `l`. -/
def containsAux : List Char → List Char → Bool
  | [], sub => sub.isEmpty
  | c :: rest, sub => prefixedBy sub (c :: rest) || containsAux rest sub

/-- `String.prototype.includes`. -/
def strIncludes (s sub : String) : Bool := containsAux s.toList sub.toList

/-! ### Number parsing and printing -/

/-- Longest leading run of decimal digits, with the remainder. -/
def takeDigits : List Char → List Char × List Char
  | [] => ([], [])
  | c :: cs =>
    if c.isDigit then
      let p := takeDigits cs
      (c :: p.1, p.2)
    else ([], c :: cs)

/-- Decimal digits to a natural number. -/
def digitsToNat (l : List Char) : Nat :=
  l.foldl (fun acc c => acc * 10 + (c.toNat - 48)) 0

/-- Optionally signed digit run for a `parseFloat` exponent; a missing digit run
contributes exponent 0, matching `parseFloat` stopping before an incomplete
exponent suffix. -/
def parseSignedDigits (l : List Char) : Int :=
  match l with
  | '+' :: r => (digitsToNat (takeDigits r).1 : Int)
  | '-' :: r => -(digitsToNat (takeDigits r).1 : Int)
  | r => (digitsToNat (takeDigits r).1 : Int)

/-- The `e`/`E` exponent suffix of a float literal, 0 when absent. -/
def parseExpPart : List Char → Int
  | 'e' :: rest => parseSignedDigits rest
  | 'E' :: rest => parseSignedDigits rest
  | _ => 0

/-- Whether the list starts with the literal word `Infinity` (case-sensitive,
as `parseFloat` requires). -/
def infinityPrefixed : List Char → Bool
  | 'I' :: 'n' :: 'f' :: 'i' :: 'n' :: 'i' :: 't' :: 'y' :: _ => true
  | _ => false

/-- JS `parseFloat`: skip leading whitespace, take an optional sign, then the
longest prefix reading as `Infinity` or a decimal literal with optional
fraction and exponent; trailing garbage is ignored and no digits at all gives
`NaN`. Never throws. -/
def parseFloat (s : String) : JsNumber :=
  let l0 := s.toList.dropWhile isWsChar
  let sign : Int := match l0 with | '-' :: _ => -1 | _ => 1
  let l1 := match l0 with | '-' :: r => r | '+' :: r => r | r => r
  if infinityPrefixed l1 then (if sign = 1 then .posInf else .negInf)
  else
    let ip := takeDigits l1
    let fp := match ip.2 with | '.' :: r => takeDigits r | _ => ([], ip.2)
    if ip.1.isEmpty && fp.1.isEmpty then .nan
    else
      let mant : Int := sign * (digitsToNat (ip.1 ++ fp.1) : Int)
      let e := parseExpPart fp.2
      mkDec mant (e - (fp.1.length : Int))

/-- `parseFloat` on a possibly-undefined argument: an undefined argument is
coerced to the string "undefined", which parses to `NaN`. -/
def parseFloatOpt : Option String → JsNumber
  | none => .nan
  | some s => parseFloat s

/-- JS `BigInt(string)`: whitespace is trimmed, the empty string gives `0n`,
and otherwise the whole trimmed string must be an optionally signed run of
decimal digits; anything else raises a `SyntaxError`. (The hex/octal/binary
literal forms also accepted by the builtin are not modelled; no behavior
reviewed here depends on them.) -/
def jsBigInt (s : String) : Except JsError Int :=
  let l := trimList s.toList
  if l.isEmpty then .ok 0
  else
    let sign : Int := match l with | '-' :: _ => -1 | _ => 1
    let digs := match l with | '-' :: r => r | '+' :: r => r | r => r
    if !digs.isEmpty && digs.all Char.isDigit then .ok (sign * (digitsToNat digs : Int))
    else .error .syntaxError

/-- `BigInt` on a possibly-undefined argument: `BigInt(undefined)` raises a
`TypeError`. -/
def jsBigIntOpt : Option String → Except JsError Int
  | none => .error .typeError
  | some s => jsBigInt s

/-- Decimal rendering of a canonical finite JS number `m * 10 ^ e` in plain
positional form (the builtin switches to exponent form for extreme magnitudes;
nothing reviewed depends on that presentational difference). -/
def decToString (m : Int) (e : Int) : String :=
  let sign := if m < 0 then "-" else ""
  let ds := toString m.natAbs
  if 0 ≤ e then sign ++ ds ++ (⟨List.replicate e.toNat '0'⟩ : String)
  else
    let k := (-e).toNat
    let n := ds.toList.length
    if k < n then
      sign ++ (⟨ds.toList.take (n - k)⟩ : String) ++ "." ++ (⟨ds.toList.drop (n - k)⟩ : String)
    else
      sign ++ "0." ++ (⟨List.replicate (k - n) '0'⟩ : String) ++ ds

/-- `Number.prototype.toString`. -/
def numToString : JsNumber → String
  | .nan => "NaN"
  | .posInf => "Infinity"
  | .negInf => "-Infinity"
  | .finite m e => decToString m e

/-- JS string conversion `v.toString()`: arrays join their elements with commas
(nullish elements print empty), objects print `[object Object]`, patterns print
slash-delimited (function source text is abbreviated; nothing reviewed depends
on it). -/
def jsToString : JsValue → String
  | .vNull => "null"
  | .vUndefined => "undefined"
  | .vBool b => cond b "true" "false"
  | .vNum n => numToString n
  | .vBigInt i => toString i
  | .vStr s => s
  | .vArr l =>
    String.intercalate ","
      (l.attach.map fun x => if isNullish x.1 then "" else jsToString x.1)
  | .vObj _ => "[object Object]"
  | .vRegExp s f => "/" ++ s ++ "/" ++ f
  | .vFunc _ => "function"
decreasing_by
  have h := List.sizeOf_lt_of_mem x.2
  simp_wf
  omega

/-! ### Regular expressions (`new RegExp`) -/

/-- Worker for `regexpValid`: scans with the current open-parenthesis depth;
a backslash escapes the following character and may not dangle. -/
def regexpValidAux : List Char → Nat → Bool
  | [], 0 => true
  | [], _ + 1 => false
  | '\\' :: rest, d =>
    match rest with
    | [] => false
    | _ :: r => regexpValidAux r d
  | '(' :: rest, d => regexpValidAux rest (d + 1)
  | ')' :: rest, d =>
    match d with
    | 0 => false
    | d + 1 => regexpValidAux rest d
  | _ :: rest, d => regexpValidAux rest d

/-- Well-formedness of a regular-expression source string, abstracting the
builtin `RegExp` syntax check: escapes consume the next character, parentheses
must balance, and a trailing lone backslash is malformed. This
under-approximates the real grammar but agrees with it on every pattern text
appearing in this development. -/
def regexpValid (s : String) : Bool := regexpValidAux s.toList 0

/-- `new RegExp(source, flags)` where either argument may be `undefined`: an
undefined source compiles to the empty pattern and undefined flags to the empty
flag string; a malformed source raises a `SyntaxError`. -/
def jsNewRegExp (src : Option String) (flags : Option String) : Except JsError JsValue :=
  let s := src.getD "(?:)"
  if regexpValid s then .ok (.vRegExp s (flags.getD "")) else .error .syntaxError

/-- Reading `.source` off the default value: raises a `TypeError` on null or
undefined, yields the source text on a pattern, and `undefined` otherwise. -/
def regexpSourceProp : JsValue → Except JsError (Option String)
  | .vNull => .error .typeError
  | .vUndefined => .error .typeError
  | .vRegExp s _ => .ok (some s)
  | _ => .ok none

/-- Reading `.flags` off the default value, with the same access behavior as
`regexpSourceProp`. -/
def regexpFlagsProp : JsValue → Except JsError (Option String)
  | .vNull => .error .typeError
  | .vUndefined => .error .typeError
  | .vRegExp _ f => .ok (some f)
  | _ => .ok none

/-! ### JSON (`JSON.parse` / `JSON.stringify`) -/

/-- JSON insignificant whitespace. -/
def isJsonWs (c : Char) : Bool :=
  c == ' ' || c == '\t' || c == '\n' || c == '\r'

/-- Value of one hexadecimal digit. -/
def hexVal (c : Char) : Option Nat :=
  if c.isDigit then some (c.toNat - 48)
  else if 'a' ≤ c ∧ c ≤ 'f' then some (c.toNat - 87)
  else if 'A' ≤ c ∧ c ≤ 'F' then some (c.toNat - 55)
  else none

/-- The single-character JSON string escapes. -/
def escapeChar : Char → Option Char
  | '"' => some '"'
  | '\\' => some '\\'
  | '/' => some '/'
  | 'b' => some (Char.ofNat 8)
  | 'f' => some (Char.ofNat 12)
  | 'n' => some '\n'
  | 'r' => some '\r'
  | 't' => some '\t'
  | _ => none

/-- Body of a JSON string literal after its opening quote: the decoded
characters and the remainder after the closing quote. -/
def parseJsonStrBody : List Char → Except JsError (List Char × List Char)
  | [] => .error .syntaxError
  | '"' :: r => .ok ([], r)
  | '\\' :: r =>
    match r with
    | [] => .error .syntaxError
    | 'u' :: a :: b :: c :: d :: r2 =>
      match hexVal a, hexVal b, hexVal c, hexVal d with
      | some x1, some x2, some x3, some x4 =>
        (parseJsonStrBody r2).map fun p =>
          (Char.ofNat (x1 * 4096 + x2 * 256 + x3 * 16 + x4) :: p.1, p.2)
      | _, _, _, _ => .error .syntaxError
    | e :: r2 =>
      match escapeChar e with
      | some c => (parseJsonStrBody r2).map fun p => (c :: p.1, p.2)
      | none => .error .syntaxError
  | c :: r =>
    if c.toNat < 32 then .error .syntaxError
    else (parseJsonStrBody r).map fun p => (c :: p.1, p.2)

/-- Exponent suffix of a JSON number: `none` on a malformed suffix, otherwise
the exponent (0 when absent) and the remainder. -/
def jsonExpPart (l : List Char) : Option (Int × List Char) :=
  match l with
  | 'e' :: rest | 'E' :: rest =>
    let (sgn, r) : Int × List Char :=
      match rest with
      | '+' :: r => (1, r)
      | '-' :: r => (-1, r)
      | r => (1, r)
    let d := takeDigits r
    if d.1.isEmpty then none else some (sgn * (digitsToNat d.1 : Int), d.2)
  | _ => some (0, l)

/-- A JSON number literal (strict grammar: no leading zeros, a fraction or
exponent must carry digits). -/
def parseJsonNum (l : List Char) : Except JsError (JsValue × List Char) :=
  let sign : Int := match l with | '-' :: _ => -1 | _ => 1
  let l1 := match l with | '-' :: r => r | r => r
  let ip := takeDigits l1
  if ip.1.isEmpty then .error .syntaxError
  else if decide (1 < ip.1.length) && ip.1.headD '0' == '0' then .error .syntaxError
  else
    let fp : Option (List Char × List Char) :=
      match ip.2 with
      | '.' :: r =>
        let f := takeDigits r
        if f.1.isEmpty then none else some f
      | r => some ([], r)
    match fp with
    | none => .error .syntaxError
    | some f =>
      match jsonExpPart f.2 with
      | none => .error .syntaxError
      | some (e, rest) =>
        let mant : Int := sign * (digitsToNat (ip.1 ++ f.1) : Int)
        .ok (.vNum (mkDec mant (e - (f.1.length : Int))), rest)

/-- Parser mode: a single value, the element loop of an array, or the member
loop of an object (with the elements gathered so far, reversed). -/
inductive JsonFrame where
  | val
  | arrLoop (acc : List JsValue)
  | objLoop (acc : List (String × JsValue))

/-- The JSON parser core, structurally recursive on a fuel bound that the
wrapper instantiates with more than the input length (each recursive step
follows the consumption of at least one character). -/
def jsonRun : Nat → JsonFrame → List Char → Except JsError (JsValue × List Char)
  | 0, _, _ => .error .syntaxError
  | fuel + 1, .val, l =>
    match l.dropWhile isJsonWs with
    | 'n' :: 'u' :: 'l' :: 'l' :: r => .ok (.vNull, r)
    | 't' :: 'r' :: 'u' :: 'e' :: r => .ok (.vBool true, r)
    | 'f' :: 'a' :: 'l' :: 's' :: 'e' :: r => .ok (.vBool false, r)
    | '"' :: r => (parseJsonStrBody r).map fun p => (.vStr ⟨p.1⟩, p.2)
    | '[' :: r =>
      (match r.dropWhile isJsonWs with
       | ']' :: rest => .ok (.vArr [], rest)
       | _ => jsonRun fuel (.arrLoop []) r)
    | c :: r =>
      if c = Char.ofNat 123 then
        match r.dropWhile isJsonWs with
        | c2 :: rest =>
          if c2 = Char.ofNat 125 then .ok (.vObj [], rest)
          else jsonRun fuel (.objLoop []) r
        | [] => .error .syntaxError
      else if c = '-' || c.isDigit then parseJsonNum (c :: r)
      else .error .syntaxError
    | [] => .error .syntaxError
  | fuel + 1, .arrLoop acc, l =>
    match jsonRun fuel .val l with
    | .error e => .error e
    | .ok (v, rest) =>
      match rest.dropWhile isJsonWs with
      | ',' :: r2 => jsonRun fuel (.arrLoop (v :: acc)) r2
      | ']' :: r2 => .ok (.vArr (v :: acc).reverse, r2)
      | _ => .error .syntaxError
  | fuel + 1, .objLoop acc, l =>
    match l.dropWhile isJsonWs with
    | '"' :: r =>
      match parseJsonStrBody r with
      | .error e => .error e
      | .ok (k, r2) =>
        match r2.dropWhile isJsonWs with
        | ':' :: r3 =>
          match jsonRun fuel .val r3 with
          | .error e => .error e
          | .ok (v, r4) =>
            match r4.dropWhile isJsonWs with
            | ',' :: r5 => jsonRun fuel (.objLoop ((⟨k⟩, v) :: acc)) r5
            | c :: r5 =>
              if c = Char.ofNat 125 then .ok (.vObj ((⟨k⟩, v) :: acc).reverse, r5)
              else .error .syntaxError
            | [] => .error .syntaxError
        | _ => .error .syntaxError
    | _ => .error .syntaxError

/-- `JSON.parse` on the modelled values: a single JSON value with only trailing
whitespace allowed; malformed text raises a `SyntaxError`. -/
def jsonParse (s : String) : Except JsError JsValue :=
  match jsonRun (s.toList.length + 1) .val s.toList with
  | .error e => .error e
  | .ok (v, rest) =>
    if (rest.dropWhile isJsonWs).isEmpty then .ok v else .error .syntaxError

/-- JSON string-literal encoding of a string value. -/
def quoteJsonStr (s : String) : String :=
  let esc : Char → List Char := fun c =>
    if c = '"' ∨ c = '\\' then ['\\', c]
    else if c = '\n' then ['\\', 'n']
    else if c = '\r' then ['\\', 'r']
    else if c = '\t' then ['\\', 't']
    else [c]
  "\"" ++ (⟨s.toList.flatMap esc⟩ : String) ++ "\""

/-- `JSON.stringify` on the modelled values: `undefined` and functions
serialize to nothing, a bigint raises a `TypeError`, non-finite numbers print
`null`, patterns serialize as empty objects, arrays print absent elements as
`null`, and objects drop members whose value serializes to nothing. -/
def jsonStringify : JsValue → Except JsError (Option String)
  | .vNull => .ok (some "null")
  | .vUndefined => .ok none
  | .vFunc _ => .ok none
  | .vBool b => .ok (some (cond b "true" "false"))
  | .vNum n =>
    .ok (some (match n with
               | .finite m e => decToString m e
               | _ => "null"))
  | .vBigInt _ => .error .typeError
  | .vStr s => .ok (some (quoteJsonStr s))
  | .vRegExp _ _ => .ok (some ("\x7b\x7d"))
  | .vArr l =>
    match l.attach.mapM fun x => jsonStringify x.1 with
    | .error e => .error e
    | .ok parts => .ok (some ("[" ++ String.intercalate "," (parts.map (·.getD "null")) ++ "]"))
  | .vObj fs =>
    match fs.attach.mapM fun x => (jsonStringify x.1.2).map fun o => (x.1.1, o) with
    | .error e => .error e
    | .ok parts =>
      let members := parts.filterMap fun p =>
        match p.2 with
        | some v => some (quoteJsonStr p.1 ++ ":" ++ v)
        | none => none
      .ok (some ("\x7b" ++ String.intercalate "," members ++ "\x7d"))
decreasing_by
  · have h := List.sizeOf_lt_of_mem x.2
    simp_wf
    omega
  · rcases x with ⟨⟨a, b⟩, hm⟩
    have h := List.sizeOf_lt_of_mem hm
    simp_wf
    simp only [Prod.mk.sizeOf_spec] at h
    omega

/-! ### TypeConverters (modelled from the spec) -/

/-- Modelled from the spec: the source imports `./type_converters`, whose
implementation file is not in the reviewed tree. Per §4.1, `toBoolean(raw,
fallback)` returns the fallback when the raw value is absent, and otherwise is
`true` exactly when the lowercased trimmed string is `"true"` or `"1"`; it
never throws. -/
def toBoolean (raw : Option String) (fallback : JsValue) : JsValue :=
  match raw with
  | none => fallback
  | some s =>
    let t := lowerStr (jsTrim s)
    .vBool (t == "true" || t == "1")

/-- Left-to-right elementwise conversion where the first raised error
propagates, as a JS `Array.prototype.map` over a throwing converter behaves. -/
def mapConv (f : String → Except JsError JsValue) :
    List String → Except JsError (List JsValue)
  | [] => .ok []
  | x :: xs =>
    match f x with
    | .error e => .error e
    | .ok v =>
      match mapConv f xs with
      | .error e => .error e
      | .ok vs => .ok (v :: vs)

/-- Modelled from the spec: §4.1 `mapArray` (named `toArray` in the source's
import) applies the element converter to each raw element, producing a sequence
of the same length; converter exceptions propagate uncaught. -/
def toArray (l : List String) (f : String → Except JsError JsValue) :
    Except JsError JsValue :=
  (mapConv f l).map JsValue.vArr

/-! ### The coercion engine (`getOrDefault`) -/

/-- Lines 66-71 of the source: `let type = optionalType ?? typeof
defaultValue`, overwritten with the bare `optionalType` when the default is
null or undefined. A `none` result means the effective type is the value
`undefined`. -/
def resolvedTypeStr (defaultValue : JsValue) (optionalType : Option String) :
    Option String :=
  if isNullish defaultValue then optionalType
  else some (optionalType.getD (typeofV defaultValue))

/-- `value ?? defaultValue?.toString()`, the argument shared by the number and
bigint arms. -/
def coalesceToString (value : Option String) (defaultValue : JsValue) : Option String :=
  match value with
  | some v => some v
  | none => if isNullish defaultValue then none else some (jsToString defaultValue)

/-- `(defaultValue as () => T)?.call(null)` from the function arm: `undefined`
when the default is nullish, the function's result when it is a function, and a
`TypeError` otherwise. -/
def callDefault : JsValue → Except JsError JsValue
  | .vNull => .ok .vUndefined
  | .vUndefined => .ok .vUndefined
  | .vFunc r => .ok r
  | _ => .error .typeError

/-- The per-element scalar converters of the `array<...>` arm (lines 98-111 of
the source): boolean, float, bigint, JSON and pattern element conversion, with
the default arm leaving segments as strings. -/
def elementConverter (arrayType : Option String) (v : String) :
    Except JsError JsValue :=
  match arrayType with
  | some "boolean" => .ok (toBoolean (some v) .vUndefined)
  | some "number" => .ok (.vNum (parseFloat v))
  | some "bigint" => (jsBigInt v).map JsValue.vBigInt
  | some "object" => jsonParse v
  | some "regexp" => jsNewRegExp (some v) none
  | _ => .ok (.vStr v)

/-- The `switch (type)` body of `getOrDefault` (lines 83-126 of the source),
after the raw read and the array-shape unpacking. In the regexp arm the source
reads `.source` lazily behind `value ??` but `.flags` unconditionally; since a
nullish default makes both property reads raise the same `TypeError`, reading
both up front is observationally identical and is noted here once. -/
def dispatchSwitch (value : Option String) (defaultValue : JsValue)
    (type : String) (arrayType : Option String) : Except JsError JsValue :=
  if type = "boolean" then
    .ok (toBoolean value defaultValue)
  else if type = "number" then
    .ok (.vNum (parseFloatOpt (coalesceToString value defaultValue)))
  else if type = "bigint" then
    (jsBigIntOpt (coalesceToString value defaultValue)).map JsValue.vBigInt
  else if type = "function" then
    (match value with
     | some s => if s ≠ "" then .ok (.vStr s) else callDefault defaultValue
     | none => callDefault defaultValue)
  else if type = "array" then
    (match value with
     | none => .ok defaultValue
     | some s =>
       let arr := jsSplit s ','
       match arrayType with
       | some "boolean" => toArray arr (elementConverter (some "boolean"))
       | some "number" => toArray arr (elementConverter (some "number"))
       | some "bigint" => toArray arr (elementConverter (some "bigint"))
       | some "object" => toArray arr (elementConverter (some "object"))
       | some "regexp" => toArray arr (elementConverter (some "regexp"))
       | _ => .ok (.vArr (arr.map JsValue.vStr)))
  else if type = "regexp" then
    (match regexpSourceProp defaultValue, regexpFlagsProp defaultValue with
     | .error e, _ => .error e
     | .ok _, .error e => .error e
     | .ok dsrc, .ok dflags =>
       jsNewRegExp (match value with | some v => some v | none => dsrc) dflags)
  else
    match defaultValue with
    | .vArr l =>
      (match value with
       | some s => .ok (.vArr ((jsSplit s ',').map JsValue.vStr))
       | none => .ok (.vArr l))
    | .vRegExp src flags => jsNewRegExp (some (value.getD src)) (some flags)
    | d =>
      if type = "object" then
        match value with
        | some s => jsonParse s
        | none =>
          match jsonStringify d with
          | .error e => .error e
          | .ok (some s) => jsonParse s
          | .ok none => .error .syntaxError
      else
        match value with
        | some s => if s ≠ "" then .ok (.vStr s) else .ok d
        | none => .ok d

/-- Lines 73-81 of the source: array-shape unpacking plus dispatch, once the
effective type string exists. `type.replace('array<', '')` removes the leading
six characters (the guard has just established that `array<` is the prefix, so
its first occurrence is at the start) and `.replace('>', '')` removes the first
`>` of what remains. -/
def dispatchTyped (value : Option String) (defaultValue : JsValue)
    (type0 : String) : Except JsError JsValue :=
  if strStartsWith type0 "array<" then
    dispatchSwitch value defaultValue "array"
      (some ⟨removeFirstChar '>' (type0.toList.drop 6)⟩)
  else
    dispatchSwitch value defaultValue type0 none

/-- `getOrDefault` of `src/environment/index.ts` (the revision with `array<T>`
shape literals): the typed coercion engine. The environment is the raw
process-wide key-to-string map. When the optional type is absent and the
default nullish, the effective type is the value `undefined` and the
`type.startsWith('array<')` property access on it raises a `TypeError`. -/
def getOrDefault (env : String → Option String) (key : String)
    (defaultValue : JsValue) (optionalType : Option String) :
    Except JsError JsValue :=
  match resolvedTypeStr defaultValue optionalType with
  | none => .error .typeError
  | some type0 => dispatchTyped (env key) defaultValue type0

/-- Modelled from the spec: the override store and the override short-circuit
of resolution (§4.2 step 1, §4.3) are exercised by the repository's test suite
(`overrideVariable` / `getOrDefault` returning the override) but their
implementation file is not in the reviewed tree. An overridden key returns its
stored, already-typed value verbatim with no coercion and no shape check;
otherwise resolution falls through to `getOrDefault`. -/
def resolve (overrides : String → Option JsValue) (env : String → Option String)
    (key : String) (defaultValue : JsValue) (optionalType : Option String) :
    Except JsError JsValue :=
  match overrides key with
  | some v => .ok v
  | none => getOrDefault env key defaultValue optionalType

/-! ### Container probes -/

/-- Filesystem state visible to the container probes: whether `/.dockerenv`
exists, and the readable text of `/proc/self/cgroup` (`none` meaning the read
throws). -/
structure FileSystem where
  dockerenvExists : Bool
  cgroupContent : Option String

/-- `hasDockerEnv`: false off Linux, otherwise the existence of `/.dockerenv`. -/
def hasDockerEnv (platform : String) (fs : FileSystem) : Bool :=
  if platform ≠ "linux" then false
  else fs.dockerenvExists

/-- `hasDockerCGroup`: false off Linux, otherwise whether the cgroup file reads
successfully and contains the token `docker`; a throwing read yields false. -/
def hasDockerCGroup (platform : String) (fs : FileSystem) : Bool :=
  if platform ≠ "linux" then false
  else
    match fs.cgroupContent with
    | none => false
    | some c => strIncludes c "docker"

/-- `isDocker` with the memo cell (`_isDocker`) threaded explicitly: false off
Linux without touching the memo; otherwise a set memo is returned as-is, and an
unset memo is filled with the disjunction of the two probes. The result pairs
the returned boolean with the memo state after the call. -/
def isDocker (platform : String) (fs : FileSystem) (memo : Option Bool) :
    Bool × Option Bool :=
  if platform ≠ "linux" then (false, memo)
  else
    match memo with
    | some b => (b, some b)
    | none =>
      let r := hasDockerEnv platform fs || hasDockerCGroup platform fs
      (r, some r)

/-! ### Helper lemmas -/

/-- A supplied optional type is the resolved type string, whatever the
default. -/
theorem resolvedTypeStr_some (d : JsValue) (t : String) :
    resolvedTypeStr d (some t) = some t := by
  unfold resolvedTypeStr
  cases h : isNullish d <;> simp

/-- A successful `mapConv` run preserves length and converts pointwise. -/
theorem mapConv_ok (f : String → Except JsError JsValue) :
    ∀ (arr : List String) (l : List JsValue), mapConv f arr = .ok l →
      l.length = arr.length ∧
      ∀ i (hi : i < arr.length) (hi' : i < l.length),
        f (arr.get ⟨i, hi⟩) = .ok (l.get ⟨i, hi'⟩) := by
  intro arr
  induction arr with
  | nil =>
    intro l h
    simp [mapConv] at h
    subst h
    exact ⟨rfl, fun i hi _ => by simp at hi⟩
  | cons x xs ih =>
    intro l h
    rw [mapConv] at h
    cases hf : f x with
    | error e => rw [hf] at h; exact absurd h (by simp)
    | ok v =>
      rw [hf] at h
      cases hm : mapConv f xs with
      | error e => rw [hm] at h; exact absurd h (by simp)
      | ok vs =>
        rw [hm] at h
        have hl : v :: vs = l := by simpa using h
        subst hl
        obtain ⟨ihlen, ihget⟩ := ih vs hm
        refine ⟨by simp [ihlen], ?_⟩
        intro i hi hi'
        cases i with
        | zero => simpa using hf
        | succ n =>
          exact ihget n (by simpa using hi) (by simpa using hi')

/-- A successful `toArray` run preserves length and converts pointwise. -/
theorem toArray_ok (f : String → Except JsError JsValue) (arr : List String)
    (l : List JsValue) (h : toArray arr f = .ok (.vArr l)) :
    l.length = arr.length ∧
    ∀ i (hi : i < arr.length) (hi' : i < l.length),
      f (arr.get ⟨i, hi⟩) = .ok (l.get ⟨i, hi'⟩) := by
  unfold toArray at h
  cases hm : mapConv f arr with
  | error e =>
    rw [hm] at h
    simp only [Except.map] at h
    exact absurd h (by simp)
  | ok vs =>
    rw [hm] at h
    simp only [Except.map] at h
    have hv : vs = l := by simpa using h
    subst hv
    exact mapConv_ok f arr _ hm

/-- An if-expression both of whose branches resolve successfully resolves
successfully. -/
theorem ite_ok_exists {c : Prop} [Decidable c] {x y : Except JsError JsValue}
    (hx : ∃ v, x = .ok v) (hy : ∃ v, y = .ok v) :
    ∃ v, (if c then x else y) = .ok v := by
  by_cases h : c
  · rw [if_pos h]; exact hx
  · rw [if_neg h]; exact hy

/-! ### Claim theorems -/

/-- C1: a key with a live override entry resolves to the stored override value
verbatim — no coercion, no shape check — ignoring the raw environment entirely,
for every default and every declared shape. -/
theorem resolve_override_wins (ov : String → Option JsValue)
    (env : String → Option String) (key : String) (v : JsValue)
    (d : JsValue) (t : Option String) (h : ov key = some v) :
    resolve ov env key d t = .ok v := by
  unfold resolve
  rw [h]

/-- C1 witness: a concrete override preempts a set raw variable and a declared
bigint shape. -/
theorem resolve_override_wins_witness :
    resolve (fun _ => some (.vStr "ov")) (fun _ => some "raw") "KEY"
      (.vNum (.finite 0 0)) (some "bigint") = .ok (.vStr "ov") :=
  resolve_override_wins _ _ "KEY" _ _ _ rfl

/-- C2 (code bug evaluation): with the raw variable unset, a null default and
no declared shape, the effective type is the value `undefined`, and the
`type.startsWith('array<')` access on it raises a TypeError — whereas the claim
and the repository's own test (`environment.spec.ts`, expecting
`getOrDefault('FOO_BAR', null)` to be null) demand a silent null. -/
theorem getOrDefault_null_default_type_error :
    getOrDefault (fun _ => none) "FOO_BAR" .vNull none = .error .typeError := rfl

/-- C3: a supplied declared shape is the shape used for dispatch verbatim, for
every default; in particular a declared bigint shape with the number default 0
and raw "1" yields the arbitrary-precision integer 1, not the float 1. -/
theorem getOrDefault_declared_shape_verbatim (env : String → Option String)
    (key : String) (d : JsValue) (t : String) :
    getOrDefault env key d (some t) = dispatchTyped (env key) d t ∧
    getOrDefault (fun _ => some "1") "K" (.vNum (.finite 0 0)) (some "bigint")
      = .ok (.vBigInt 1) := by
  constructor
  · unfold getOrDefault
    rw [resolvedTypeStr_some]
  · rfl

/-- C4 (counterexample): the structured-object shape raises a SyntaxError on
malformed raw JSON text, and the declared string shape raises a SyntaxError
when a pattern default meets malformed raw pattern text — refuting the claim
that every shape besides bigint, pattern and their array forms never raises. -/
theorem getOrDefault_raises_beyond_claimed_taxonomy :
    getOrDefault (fun _ => some "x") "K" (.vObj []) none = .error .syntaxError ∧
    getOrDefault (fun _ => some "(") "K" (.vRegExp "x" "") (some "string")
      = .error .syntaxError :=
  ⟨rfl, rfl⟩

/-- C4 (amended): resolution never raises for the boolean and number shapes
(declared with any default, or inferred), for the callback shape, and for the
string shape when the default is not a pattern. -/
theorem getOrDefault_safe_shapes_never_raise (env : String → Option String)
    (key : String) (d : JsValue) (t : Option String)
    (h : t = some "boolean" ∨ t = some "number" ∨
         (t = some "string" ∧ ∀ s f, d ≠ .vRegExp s f) ∨
         (t = none ∧ ((∃ b, d = .vBool b) ∨ (∃ n, d = .vNum n) ∨
                      (∃ s, d = .vStr s) ∨ (∃ r, d = .vFunc r)))) :
    ∃ v, getOrDefault env key d t = .ok v := by
  have hbool : ∀ (val : Option String) (dv : JsValue),
      ∃ v, dispatchSwitch val dv "boolean" none = .ok v := fun val dv => ⟨_, rfl⟩
  have hnum : ∀ (val : Option String) (dv : JsValue),
      ∃ v, dispatchSwitch val dv "number" none = .ok v := fun val dv => ⟨_, rfl⟩
  have hfn : ∀ (val : Option String) (r : JsValue),
      ∃ v, dispatchSwitch val (.vFunc r) "function" none = .ok v := by
    intro val r
    cases val with
    | none => exact ⟨_, rfl⟩
    | some s =>
      show ∃ v, (if s ≠ "" then Except.ok (JsValue.vStr s)
                 else callDefault (.vFunc r)) = Except.ok v
      exact ite_ok_exists ⟨_, rfl⟩ ⟨_, rfl⟩
  have hstr : ∀ (val : Option String) (dv : JsValue), (∀ s f, dv ≠ .vRegExp s f) →
      ∃ v, dispatchSwitch val dv "string" none = .ok v := by
    intro val dv hne
    cases dv with
    | vRegExp s f => exact absurd rfl (hne s f)
    | vNull =>
      cases val with
      | none => exact ⟨_, rfl⟩
      | some s =>
        show ∃ v, (if s ≠ "" then Except.ok (JsValue.vStr s)
                   else Except.ok _) = Except.ok v
        exact ite_ok_exists ⟨_, rfl⟩ ⟨_, rfl⟩
    | vUndefined =>
      cases val with
      | none => exact ⟨_, rfl⟩
      | some s =>
        show ∃ v, (if s ≠ "" then Except.ok (JsValue.vStr s)
                   else Except.ok _) = Except.ok v
        exact ite_ok_exists ⟨_, rfl⟩ ⟨_, rfl⟩
    | vBool b =>
      cases val with
      | none => exact ⟨_, rfl⟩
      | some s =>
        show ∃ v, (if s ≠ "" then Except.ok (JsValue.vStr s)
                   else Except.ok _) = Except.ok v
        exact ite_ok_exists ⟨_, rfl⟩ ⟨_, rfl⟩
    | vNum n =>
      cases val with
      | none => exact ⟨_, rfl⟩
      | some s =>
        show ∃ v, (if s ≠ "" then Except.ok (JsValue.vStr s)
                   else Except.ok _) = Except.ok v
        exact ite_ok_exists ⟨_, rfl⟩ ⟨_, rfl⟩
    | vBigInt i =>
      cases val with
      | none => exact ⟨_, rfl⟩
      | some s =>
        show ∃ v, (if s ≠ "" then Except.ok (JsValue.vStr s)
                   else Except.ok _) = Except.ok v
        exact ite_ok_exists ⟨_, rfl⟩ ⟨_, rfl⟩
    | vStr s0 =>
      cases val with
      | none => exact ⟨_, rfl⟩
      | some s =>
        show ∃ v, (if s ≠ "" then Except.ok (JsValue.vStr s)
                   else Except.ok _) = Except.ok v
        exact ite_ok_exists ⟨_, rfl⟩ ⟨_, rfl⟩
    | vObj fs =>
      cases val with
      | none => exact ⟨_, rfl⟩
      | some s =>
        show ∃ v, (if s ≠ "" then Except.ok (JsValue.vStr s)
                   else Except.ok _) = Except.ok v
        exact ite_ok_exists ⟨_, rfl⟩ ⟨_, rfl⟩
    | vFunc r =>
      cases val with
      | none => exact ⟨_, rfl⟩
      | some s =>
        show ∃ v, (if s ≠ "" then Except.ok (JsValue.vStr s)
                   else Except.ok _) = Except.ok v
        exact ite_ok_exists ⟨_, rfl⟩ ⟨_, rfl⟩
    | vArr l =>
      cases val with
      | none => exact ⟨_, rfl⟩
      | some s => exact ⟨_, rfl⟩
  rcases h with h | h | ⟨h, hne⟩ | ⟨h, hinf⟩
  · subst h
    unfold getOrDefault
    rw [resolvedTypeStr_some]
    exact hbool (env key) d
  · subst h
    unfold getOrDefault
    rw [resolvedTypeStr_some]
    exact hnum (env key) d
  · subst h
    unfold getOrDefault
    rw [resolvedTypeStr_some]
    exact hstr (env key) d hne
  · subst h
    rcases hinf with ⟨b, hd⟩ | ⟨n, hd⟩ | ⟨s, hd⟩ | ⟨r, hd⟩ <;> subst hd
    · exact hbool (env key) (.vBool b)
    · exact hnum (env key) (.vNum n)
    · exact hstr (env key) (.vStr s) (fun _ _ h => by cases h)
    · exact hfn (env key) r

/-- C4 witness: the declared boolean shape resolves without raising on a
concrete input. -/
theorem getOrDefault_safe_shapes_never_raise_witness :
    ∃ v, getOrDefault (fun _ => none) "K" (.vBool true) (some "boolean") = .ok v :=
  getOrDefault_safe_shapes_never_raise (fun _ => none) "K" (.vBool true)
    (some "boolean") (Or.inl rfl)

/-- C5: with the raw string present, an `array<element>` declared shape
comma-splits the raw string and maps each segment through the element shape's
scalar converter: a successful result has exactly one element per segment, the
i-th being the conversion of the i-th segment. -/
theorem getOrDefault_array_shape_elementwise (env : String → Option String)
    (key raw : String) (d : JsValue) (t : String)
    (ht : t ∈ ["boolean", "number", "bigint", "object", "regexp", "string"])
    (hraw : env key = some raw) (l : List JsValue)
    (hres : getOrDefault env key d (some ("array<" ++ t ++ ">")) = .ok (.vArr l)) :
    l.length = (jsSplit raw ',').length ∧
    ∀ i (hi : i < (jsSplit raw ',').length) (hi' : i < l.length),
      elementConverter (some t) ((jsSplit raw ',').get ⟨i, hi⟩) = .ok (l.get ⟨i, hi'⟩) := by
  unfold getOrDefault at hres
  rw [resolvedTypeStr_some] at hres
  have hres2 : dispatchTyped (env key) d ("array<" ++ t ++ ">") = .ok (.vArr l) := hres
  rw [hraw] at hres2
  fin_cases ht
  · exact toArray_ok (elementConverter (some "boolean")) (jsSplit raw ',') l hres2
  · exact toArray_ok (elementConverter (some "number")) (jsSplit raw ',') l hres2
  · exact toArray_ok (elementConverter (some "bigint")) (jsSplit raw ',') l hres2
  · exact toArray_ok (elementConverter (some "object")) (jsSplit raw ',') l hres2
  · exact toArray_ok (elementConverter (some "regexp")) (jsSplit raw ',') l hres2
  · have h3 : (Except.ok (JsValue.vArr ((jsSplit raw ',').map JsValue.vStr)) :
        Except JsError JsValue) = .ok (.vArr l) := hres2
    have hl : (jsSplit raw ',').map JsValue.vStr = l := by simpa using h3
    subst hl
    refine ⟨by simp, ?_⟩
    intro i hi hi'
    rw [List.get_map]
    rfl

/-- C5 witness: raw "1,2,3" under `array<number>` yields the floats 1, 2, 3
segmentwise. -/
theorem getOrDefault_array_shape_elementwise_witness :
    ([JsValue.vNum (.finite 1 0), .vNum (.finite 2 0), .vNum (.finite 3 0)].length
        = (jsSplit "1,2,3" ',').length) ∧
    ∀ i (hi : i < (jsSplit "1,2,3" ',').length)
      (hi' : i < [JsValue.vNum (.finite 1 0), .vNum (.finite 2 0), .vNum (.finite 3 0)].length),
      elementConverter (some "number") ((jsSplit "1,2,3" ',').get ⟨i, hi⟩)
        = .ok ([JsValue.vNum (.finite 1 0), .vNum (.finite 2 0), .vNum (.finite 3 0)].get ⟨i, hi'⟩) :=
  getOrDefault_array_shape_elementwise (fun _ => some "1,2,3") "K" "1,2,3"
    (.vArr []) "number" (by simp) rfl
    [.vNum (.finite 1 0), .vNum (.finite 2 0), .vNum (.finite 3 0)] rfl

/-- C6: with the raw variable absent, an array-resolved call returns the
supplied default verbatim with no re-coercion of its elements — for every
declared element shape, and likewise for a sequence default with no declared
shape. -/
theorem getOrDefault_array_default_verbatim (env : String → Option String)
    (key : String) (d : JsValue) (t : String)
    (ht : t ∈ ["boolean", "number", "bigint", "object", "regexp", "string"])
    (h : env key = none) :
    getOrDefault env key d (some ("array<" ++ t ++ ">")) = .ok d ∧
    ∀ l, d = .vArr l → getOrDefault env key d none = .ok d := by
  constructor
  · unfold getOrDefault
    rw [resolvedTypeStr_some]
    show dispatchTyped (env key) d ("array<" ++ t ++ ">") = .ok d
    rw [h]
    fin_cases ht <;> rfl
  · intro l hd
    subst hd
    show dispatchTyped (env key) (.vArr l) "object" = .ok (.vArr l)
    rw [h]
    rfl

/-- C6 witness: an already-typed number-array default is returned untouched
when the raw variable is unset. -/
theorem getOrDefault_array_default_verbatim_witness :
    getOrDefault (fun _ => none) "K" (.vArr [.vNum (.finite 3 0)])
      (some ("array<" ++ "number" ++ ">")) = .ok (.vArr [.vNum (.finite 3 0)]) :=
  (getOrDefault_array_default_verbatim (fun _ => none) "K"
    (.vArr [.vNum (.finite 3 0)]) "number" (by simp) rfl).1

/-- C7: a zero-argument function default infers the callback shape: a present
non-empty raw string is returned as-is, while an absent or empty raw invokes
the function and returns exactly its result. -/
theorem getOrDefault_callback_shape (env : String → Option String)
    (key : String) (r : JsValue) :
    (∀ s, env key = some s → s ≠ "" →
        getOrDefault env key (.vFunc r) none = .ok (.vStr s)) ∧
    (env key = none ∨ env key = some "" →
        getOrDefault env key (.vFunc r) none = .ok r) := by
  constructor
  · intro s hs hne
    show dispatchTyped (env key) (.vFunc r) "function" = .ok (.vStr s)
    rw [hs]
    show (if s ≠ "" then Except.ok (JsValue.vStr s) else callDefault (.vFunc r))
        = .ok (.vStr s)
    rw [if_pos hne]
  · intro hor
    rcases hor with hnone | hempty
    · show dispatchTyped (env key) (.vFunc r) "function" = .ok r
      rw [hnone]
      rfl
    · show dispatchTyped (env key) (.vFunc r) "function" = .ok r
      rw [hempty]
      rfl

/-- C7 witness: with the raw variable unset, the callback's value comes back
exactly. -/
theorem getOrDefault_callback_shape_witness :
    getOrDefault (fun _ => none) "K" (.vFunc (.vStr "z")) none = .ok (.vStr "z") :=
  (getOrDefault_callback_shape (fun _ => none) "K" (.vStr "z")).2 (Or.inl rfl)

/-- C8: once `isDocker` has computed and stored a boolean, every later call on
the same platform returns that boolean and leaves the memo untouched, for
every later filesystem state — the probes are not consulted again. -/
theorem isDocker_memo_stable (plat : String) (fs1 : FileSystem) (r m : Bool)
    (h : isDocker plat fs1 none = (r, some m)) :
    ∀ fs2 : FileSystem, isDocker plat fs2 (some m) = (r, some m) := by
  intro fs2
  by_cases hp : plat = "linux"
  · subst hp
    have h' : ((hasDockerEnv "linux" fs1 || hasDockerCGroup "linux" fs1 : Bool),
               (some (hasDockerEnv "linux" fs1 || hasDockerCGroup "linux" fs1) : Option Bool))
        = (r, some m) := h
    have hr : (hasDockerEnv "linux" fs1 || hasDockerCGroup "linux" fs1) = r :=
      congrArg Prod.fst h'
    have hm : (hasDockerEnv "linux" fs1 || hasDockerCGroup "linux" fs1) = m :=
      Option.some.inj (congrArg Prod.snd h')
    show ((m : Bool), (some m : Option Bool)) = (r, some m)
    rw [← hr, ← hm]
  · exfalso
    unfold isDocker at h
    rw [if_pos hp] at h
    exact absurd (congrArg Prod.snd h) (by simp)

/-- C8 witness: a memo stored as true survives a filesystem that would probe
false. -/
theorem isDocker_memo_stable_witness :
    isDocker "linux" ⟨false, some "systemd"⟩ (some true) = (true, some true) :=
  isDocker_memo_stable "linux" ⟨true, none⟩ true true rfl ⟨false, some "systemd"⟩

/-- C9: for the pattern shape with a pattern default, the compiled result
takes its flags from the default pattern even when the raw string supplies the
source (both under the declared `regexp` shape and under inference from a
pattern default); the raw text never contributes flags. -/
theorem getOrDefault_regexp_flags_from_default (env : String → Option String)
    (key raw src flags : String) (h : env key = some raw)
    (hv : regexpValid raw = true) :
    getOrDefault env key (.vRegExp src flags) (some "regexp")
      = .ok (.vRegExp raw flags) ∧
    getOrDefault env key (.vRegExp src flags) none
      = .ok (.vRegExp raw flags) := by
  constructor
  · unfold getOrDefault
    rw [resolvedTypeStr_some]
    show dispatchTyped (env key) (.vRegExp src flags) "regexp" = .ok (.vRegExp raw flags)
    rw [h]
    show jsNewRegExp (some raw) (some flags) = .ok (.vRegExp raw flags)
    simp [jsNewRegExp, hv]
  · show dispatchTyped (env key) (.vRegExp src flags) "object" = .ok (.vRegExp raw flags)
    rw [h]
    show jsNewRegExp (some raw) (some flags) = .ok (.vRegExp raw flags)
    simp [jsNewRegExp, hv]

/-- C9 witness: raw "^foo$" compiled against the default pattern with flags "i"
carries the flag "i". -/
theorem getOrDefault_regexp_flags_from_default_witness :
    getOrDefault (fun _ => some "^foo$") "K" (.vRegExp "^foo$" "i") (some "regexp")
      = .ok (.vRegExp "^foo$" "i") :=
  (getOrDefault_regexp_flags_from_default (fun _ => some "^foo$") "K" "^foo$"
    "^foo$" "i" rfl rfl).1

/-- C10: for the number shape an empty raw string counts as present: the float
parser receives the empty string and the result is NaN, not the supplied
default — with a declared number shape for every default, and with a
number-typed default under inference. -/
theorem getOrDefault_number_empty_raw_nan (env : String → Option String)
    (key : String) (d : JsValue) (n : JsNumber) (h : env key = some "") :
    getOrDefault env key d (some "number") = .ok (.vNum .nan) ∧
    getOrDefault env key (.vNum n) none = .ok (.vNum .nan) := by
  constructor
  · unfold getOrDefault
    rw [resolvedTypeStr_some]
    show dispatchTyped (env key) d "number" = .ok (.vNum .nan)
    rw [h]
    rfl
  · show dispatchTyped (env key) (.vNum n) "number" = .ok (.vNum .nan)
    rw [h]
    rfl

/-- C10 witness: raw set to the empty string under the number shape yields NaN
rather than the string default. -/
theorem getOrDefault_number_empty_raw_nan_witness :
    getOrDefault (fun _ => some "") "K" (.vStr "dflt") (some "number")
      = .ok (.vNum .nan) :=
  (getOrDefault_number_empty_raw_nan (fun _ => some "") "K" (.vStr "dflt")
    .nan rfl).1

end Environment
